import Mathlib

/-!
Verification development for the secretfop sync engine: a shallow embedding
of the identifier model, the dedup and ordering filter, the watermark cache,
the delivery orchestrator with rate-limit retry, cache serialization and the
message-building code, together with theorems settling the specified
properties.
-/

set_option maxRecDepth 4096

namespace Secretfop

/-- Best-effort parse of a decimal string into a 64-bit unsigned integer,
modelling str::parse::<u64> from the Rust standard library: an optional
leading plus sign, then one or more ASCII digits, rejecting the empty string
and values that overflow 64 bits. -/
def parseU64 (s : String) : Option Nat :=
  let t := match s.data with
    | '+' :: rest => rest
    | cs => cs
  if t.isEmpty then none
  else if t.all Char.isDigit then
    let n := t.foldl (fun a c => a * 10 + (c.toNat - 48)) 0
    if n < 2 ^ 64 then some n else none
  else none

/-- Embedding of SnowflakeRef from src/config.rs: an ID that is either a
64-bit unsigned integer or a borrowed string. -/
inductive SnowflakeRef where
  | Number (v : Nat)
  | String (s : String)
deriving DecidableEq, Repr

/-- Embedding of the ToString impl for SnowflakeRef in src/config.rs. -/
def sfToString : SnowflakeRef → String
  | .Number v => Nat.repr v
  | .String s => s

/-- Embedding of SnowflakeRef::unwrap_number from src/config.rs. The Rust
function panics on a string variant; the panic is modelled as none. -/
def unwrapNumber : SnowflakeRef → Option Nat
  | .Number v => some v
  | .String _ => none

/-- Embedding of the PartialEq impl for SnowflakeRef in src/config.rs:
numbers compare numerically, two strings compare by literal string equality,
and across variants the string is parsed and compared numerically, with a
failed parse giving false (unwrap_or_default). -/
def sfEq : SnowflakeRef → SnowflakeRef → Bool
  | .Number a, .Number b => a == b
  | .String a, .String b => a == b
  | .String a, .Number b => ((parseU64 a).map (fun r => r == b)).getD false
  | .Number b, .String a => ((parseU64 a).map (fun r => r == b)).getD false

/-- Embedding of the PartialOrd impl for SnowflakeRef in src/config.rs.
Note the source's or-pattern binds the string side to a and the number side
to b in both orientations, so also when self is the number the result is the
comparison of the parsed string against the number. Two strings never
compare; a failed parse gives None (unwrap_or_default). -/
def sfPartialCmp : SnowflakeRef → SnowflakeRef → Option Ordering
  | .Number a, .Number b => some (compare a b)
  | .String _, .String _ => none
  | .String a, .Number b => (parseU64 a).map (fun r => compare r b)
  | .Number b, .String a => (parseU64 a).map (fun r => compare r b)

/-- Embedding of the impl PartialOrd<u64> for SnowflakeRef in src/config.rs:
a number compares directly; a string is parsed, a failed parse giving None. -/
def sfPartialCmpU64 : SnowflakeRef → Nat → Option Ordering
  | .Number v, other => some (compare v other)
  | .String s, other => (parseU64 s).map (fun v => compare v other)

/-- Rust derives the strict greater-than test from partial_cmp: x > r holds
exactly when partial_cmp returns Some(Greater). This is the comparison used
by the dedup filter and the watermark advance in src/main.rs. -/
def sfGtU64 (x : SnowflakeRef) (r : Nat) : Bool :=
  match sfPartialCmpU64 x r with
  | some .gt => true
  | _ => false

/-- Embedding of ForeignMedia from src/sources/source.rs. -/
inductive ForeignMedia where
  | Photo (url : String)
  | Video (url : String)
deriving DecidableEq, Repr

/-- Embedding of ForeignPost from src/sources/source.rs. The url field has a
display type parameter in the source; it is modelled by its rendered string. -/
structure ForeignPost where
  id : SnowflakeRef
  source_id : SnowflakeRef
  text : String
  media : List ForeignMedia
  source : String
  url : String
deriving DecidableEq, Repr

/-- Embedding of VKMedia from src/sources/vk.rs. -/
inductive VKMedia where
  | Photo (url : String)
deriving DecidableEq, Repr

/-- Embedding of VKItem from src/sources/vk.rs. -/
structure VKItem where
  id : Nat
  text : String
  media : List VKMedia
deriving DecidableEq, Repr

/-- Embedding of VKGroupFeed from src/sources/vk.rs. -/
structure VKGroupFeed where
  group_source_name : String
  group_id : Nat
  items : List VKItem
deriving DecidableEq, Repr

/-- Embedding of the Display impl for VKItemURL in src/sources/vk.rs. -/
def vkItemURL (group_id item_id : Nat) : String :=
  "https://vk.com/wall-" ++ Nat.repr group_id ++ "_" ++ Nat.repr item_id

/-- Embedding of VKGroupFeed::as_iter from src/sources/vk.rs: each item of
the feed becomes a ForeignPost with numeric post and source ids. -/
def asIter (f : VKGroupFeed) : List ForeignPost :=
  f.items.map (fun item =>
    { id := .Number item.id
      source_id := .Number f.group_id
      text := item.text
      media := item.media.map (fun m => match m with | .Photo v => ForeignMedia.Photo v)
      source := f.group_source_name
      url := vkItemURL f.group_id item.id })

/-- In-memory model of the vk field of CacheRecords from src/config.rs: the
HashMap from source-id string to highest delivered post id, represented as
its sequence of entries (HashMap iteration order is unspecified, so the
entry order carries no meaning beyond being some iteration order). -/
abbrev CacheMap := List (String × Nat)

/-- Embedding of HashMap::get: the value stored at a key, if any. -/
def cacheGet : CacheMap → String → Option Nat
  | [], _ => none
  | (k, v) :: rest, key => if k == key then some v else cacheGet rest key

/-- Embedding of the and_modify update: every entry at the key gets the new
value, other entries are unchanged. -/
def cacheSet : CacheMap → String → Nat → CacheMap
  | [], _, _ => []
  | (k, w) :: rest, key, v => (k, if k == key then v else w) :: cacheSet rest key v

/-- Embedding of the watermark-advance block of src/main.rs (shared by the
populate and the delivery loops): entry(source_id.to_string()), and_modify
setting the stored value to post.id.unwrap_number() when post.id > current,
or_insert_with post.id.unwrap_number() when the key is absent. The
unwrap_number panic on a string id is modelled as none. -/
def advanceWatermark (cache : CacheMap) (post : ForeignPost) : Option CacheMap :=
  match cacheGet cache (sfToString post.source_id) with
  | some k =>
      if sfGtU64 post.id k then
        (unwrapNumber post.id).map (fun n => cacheSet cache (sfToString post.source_id) n)
      else some cache
  | none => (unwrapNumber post.id).map (fun n => cache ++ [(sfToString post.source_id, n)])

/-- Embedding of the filter closure of src/main.rs lines 104-111: keep a
post when its media is non-empty and the stored watermark for its source is
either absent (unwrap_or(true)) or strictly below the post id. -/
def keepPost (cache : CacheMap) (f : ForeignPost) : Bool :=
  !f.media.isEmpty &&
    ((cacheGet cache (sfToString f.source_id)).map (fun r => sfGtU64 f.id r)).getD true

/-- The dedup filter applied to one sequence of posts. -/
def dedupFilter (cache : CacheMap) (posts : List ForeignPost) : List ForeignPost :=
  posts.filter (keepPost cache)

/-- Embedding of the post pipeline of src/main.rs: flat_map over the fetched
feeds with as_iter, the dedup filter, then the final rev() under which both
loops consume the posts. -/
def processingOrder (cache : CacheMap) (feeds : List VKGroupFeed) : List ForeignPost :=
  ((feeds.map asIter).flatten.filter (keepPost cache)).reverse

/-- Embedding of TelegramError from src/telegram.rs; the reqwest and
serde_json error payloads are irrelevant to control flow and are dropped,
and the rate-limit timeout is the whole number of seconds the source wraps
in a Duration. -/
inductive TelegramError where
  | Http
  | Scheme
  | Server (error_code : Nat) (description : String)
  | RateLimited (timeout : Nat)
deriving DecidableEq, Repr

/-- Embedding of TelegramMessage from src/telegram.rs. -/
structure TelegramMessage where
  message_id : Nat
deriving DecidableEq, Repr

/-- Embedding of TelegramResponse from src/telegram.rs, specialized to the
Vec<TelegramMessage> payload used by SendMessage::send; parameters holds the
retry_after seconds of a rate-limit error when present. -/
inductive TelegramResponse where
  | Ok (result : List TelegramMessage)
  | Err (error_code : Nat) (description : String) (parameters : Option Nat)
deriving DecidableEq, Repr

/-- Embedding of TelegramMediaType from src/telegram.rs. -/
inductive TelegramMediaType where
  | Photo
  | Video
deriving DecidableEq, Repr

/-- Embedding of TelegramMedia from src/telegram.rs. -/
structure TelegramMedia where
  type : TelegramMediaType
  media : String
  caption : Option String
  parse_mode : Option String
deriving DecidableEq, Repr

/-- Embedding of the per-character escaping of the Display impl for
ProtectedString in src/telegram.rs. -/
def protectChar : Char → String
  | '&' => "&amp;"
  | '>' => "&gt;"
  | '<' => "&lt;"
  | c => String.singleton c

/-- Embedding of the Display impl for ProtectedString in src/telegram.rs:
the concatenation of the per-character escapes. -/
def protectedString (s : String) : String :=
  s.data.foldl (fun acc c => acc ++ protectChar c) ""

/-- Embedding of the text built by SendMessage::by_foreign in
src/telegram.rs: the format string interpolating the escaped post text, the
raw url, and the escaped source label. -/
def byForeignText (p : ForeignPost) : String :=
  protectedString p.text ++ "\n\nsrc: <a href=\"" ++ p.url ++ "\">"
    ++ protectedString p.source ++ "</a>"

/-- Embedding of the media list built by SendMessage::by_foreign in
src/telegram.rs: each foreign media becomes a TelegramMedia with no caption
and no parse mode. -/
def byForeignMedia (p : ForeignPost) : List TelegramMedia :=
  p.media.map (fun m =>
    match m with
    | .Photo url => { type := .Photo, media := url, caption := none, parse_mode := none }
    | .Video url => { type := .Video, media := url, caption := none, parse_mode := none })

/-- Embedding of the head of SendMessage::send in src/telegram.rs: the
unimplemented! panic on empty media is modelled as none; otherwise the
message text becomes the caption of media element 0 and its parse mode is
set to HTML, the remaining elements untouched. -/
def sendPrepare (text : String) (media : List TelegramMedia) : Option (List TelegramMedia) :=
  match media with
  | [] => none
  | m :: rest => some ({ m with caption := some text, parse_mode := some "HTML" } :: rest)

/-- Embedding of the response handling of SendMessage::send in
src/telegram.rs lines 193-212: an Ok response yields result[0].message_id
(the index panic on an empty result list is modelled as none), an error
response with code 429 and a retry_after parameter yields RateLimited, and
any other error response yields Server. -/
def sendHandleResponse : TelegramResponse → Option (Except TelegramError Nat)
  | .Ok result =>
      match result with
      | [] => none
      | m :: _ => some (.ok m.message_id)
  | .Err 429 _ (some retry_after) => some (.error (.RateLimited retry_after))
  | .Err error_code description _ => some (.error (.Server error_code description))

/-- Outcome of delivering one post: the final result, the number of deliver
calls made, and the list of sleep durations performed. -/
structure DeliveryOutcome where
  result : Except TelegramError Nat
  attempts : Nat
  sleeps : List Nat
deriving Repr

/-- Embedding of the retry block of src/main.rs lines 129-138: the first
send result o1 stands unless it is a RateLimited error, in which case the
orchestrator sleeps for its timeout and the second send result o2 stands. -/
def deliverWithRetry (o1 o2 : Except TelegramError Nat) : DeliveryOutcome :=
  match o1 with
  | .error (.RateLimited t) => { result := o2, attempts := 2, sleeps := [t] }
  | r => { result := r, attempts := 1, sleeps := [] }

/-- Embedding of one iteration of the delivery loop of src/main.rs lines
128-152: deliver with the single rate-limit retry, then on error keep the
cache unchanged (only logging), on success run the watermark advance. -/
def processPost (o1 o2 : Except TelegramError Nat) (cache : CacheMap) (post : ForeignPost) :
    Option CacheMap × DeliveryOutcome :=
  let d := deliverWithRetry o1 o2
  match d.result with
  | .ok _ => (advanceWatermark cache post, d)
  | .error _ => (some cache, d)

/-- Embedding of serde_json string escaping (the character classes the
serializer escapes: quote, backslash, and control characters, the latter as
short escapes or lowercase \u00XX). -/
def jsonEscapeChar (c : Char) : String :=
  if c = '"' then "\\\""
  else if c = '\\' then "\\\\"
  else if c.toNat = 8 then "\\b"
  else if c.toNat = 9 then "\\t"
  else if c.toNat = 10 then "\\n"
  else if c.toNat = 12 then "\\f"
  else if c.toNat = 13 then "\\r"
  else if c.toNat < 32 then
    "\\u00"
      ++ String.singleton (if c.toNat / 16 < 10 then Char.ofNat (48 + c.toNat / 16)
          else Char.ofNat (87 + c.toNat / 16))
      ++ String.singleton (if c.toNat % 16 < 10 then Char.ofNat (48 + c.toNat % 16)
          else Char.ofNat (87 + c.toNat % 16))
  else String.singleton c

/-- JSON escaping of a whole string. -/
def jsonEscape (s : String) : String :=
  s.data.foldl (fun acc c => acc ++ jsonEscapeChar c) ""

/-- Comma-joined concatenation, as the JSON serializer renders the fields of
an object. -/
def joinComma : List String → String
  | [] => ""
  | [x] => x
  | x :: rest => x ++ "," ++ joinComma rest

/-- Embedding of serde_json::to_string(&CacheRecords): the object with the
single vk field holding the map entries in iteration order. -/
def serializeCacheRecords (entries : CacheMap) : String :=
  "\x7b\"vk\":\x7b"
    ++ joinComma (entries.map (fun e => "\"" ++ jsonEscape e.1 ++ "\":" ++ Nat.repr e.2))
    ++ "\x7d\x7d"

/-- Predicate transcribed from the words of the spec contract in section
4.2: keep a post when its media is non-empty and the stored watermark for
its source is absent or strictly below the post id. It is compared against
the source-derived keepPost in the C1 theorem. -/
def specKeepPost (cache : CacheMap) (p : ForeignPost) : Bool :=
  !p.media.isEmpty &&
    match cacheGet cache (sfToString p.source_id) with
    | none => true
    | some w => sfGtU64 p.id w

/-- Folding the watermark advance over a sequence of posts, as the populate
loop does, and as the delivery loop does on its successful iterations. -/
def advanceAll (cache : CacheMap) (posts : List ForeignPost) : Option CacheMap :=
  posts.foldlM advanceWatermark cache

/-- Concrete post with a numeric id, for the concrete instances below. -/
def samplePost (pid gid : Nat) (media : List ForeignMedia) : ForeignPost :=
  { id := .Number pid, source_id := .Number gid, text := "t", media := media,
    source := "s", url := "u" }

/-- Concrete post whose id is a string that does not coerce to a number. -/
def nonNumPost : ForeignPost :=
  { id := .String "abc", source_id := .Number 1, text := "t",
    media := [.Photo "u"], source := "s", url := "u" }

/-- Concrete single-source feed with post ids 5, 4, 3 in feed order, each
with non-empty media. -/
def feed543 : VKGroupFeed :=
  { group_source_name := "vk // g", group_id := 1,
    items := [ { id := 5, text := "a", media := [.Photo "p5"] },
               { id := 4, text := "b", media := [.Photo "p4"] },
               { id := 3, text := "c", media := [.Photo "p3"] } ] }

/-- Concrete post for the delivery-loop and watermark instances. -/
def deliveryPost : ForeignPost := samplePost 5 1 [.Photo "u"]

/-- Concrete post whose text, source label and url all contain characters
subject to HTML escaping, with two media elements. -/
def sampleRichPost : ForeignPost :=
  { id := .Number 9, source_id := .Number 1, text := "a&b<c>",
    media := [.Photo "m1", .Photo "m2"], source := "s<1>",
    url := "https://x?a=1&b=2" }

/-! Helper lemmas about the comparison and the cache map. -/

theorem sfGtU64_number_iff (n k : Nat) : sfGtU64 (.Number n) k = true ↔ k < n := by
  rcases hcc : compare n k with _ | _ | _
  · have h := Nat.compare_eq_lt.mp hcc
    simp [sfGtU64, sfPartialCmpU64, hcc]
    omega
  · have h := Nat.compare_eq_eq.mp hcc
    simp [sfGtU64, sfPartialCmpU64, hcc]
    omega
  · have h := Nat.compare_eq_gt.mp hcc
    simp [sfGtU64, sfPartialCmpU64, hcc, h]

theorem sfGtU64_string_none {s : String} (hs : parseU64 s = none) (k : Nat) :
    sfGtU64 (.String s) k = false := by
  simp [sfGtU64, sfPartialCmpU64, hs]

theorem cacheGet_append_of_some {a : CacheMap} {key : String} {v : Nat} (b : CacheMap)
    (h : cacheGet a key = some v) : cacheGet (a ++ b) key = some v := by
  induction a with
  | nil => simp [cacheGet] at h
  | cons e rest ih =>
    obtain ⟨k, w⟩ := e
    by_cases hk : (k == key) = true
    · simpa [cacheGet, hk] using h
    · simp only [cacheGet, List.cons_append, hk] at h ⊢
      simp only [Bool.false_eq_true, if_false] at h ⊢
      exact ih h

theorem cacheGet_append_of_none {a : CacheMap} {key : String} (b : CacheMap)
    (h : cacheGet a key = none) : cacheGet (a ++ b) key = cacheGet b key := by
  induction a with
  | nil => simp [cacheGet]
  | cons e rest ih =>
    obtain ⟨k, w⟩ := e
    by_cases hk : (k == key) = true
    · simp [cacheGet, hk] at h
    · simp only [cacheGet, List.cons_append, hk] at h ⊢
      simp only [Bool.false_eq_true, if_false] at h ⊢
      exact ih h

theorem cacheGet_cacheSet_of_some {cache : CacheMap} {key0 : String} {w : Nat}
    (key : String) (v : Nat) (h : cacheGet cache key0 = some w) :
    cacheGet (cacheSet cache key v) key0 = some (if key0 == key then v else w) := by
  induction cache with
  | nil => simp [cacheGet] at h
  | cons e rest ih =>
    obtain ⟨k, u⟩ := e
    by_cases hk : (k == key0) = true
    · have hkeq : k = key0 := beq_iff_eq.mp hk
      subst hkeq
      simp only [cacheGet, cacheSet, hk, if_true] at h ⊢
      obtain rfl : u = w := Option.some_inj.mp h
      rfl
    · simp only [cacheGet, cacheSet, hk] at h ⊢
      simp only [Bool.false_eq_true, if_false] at h ⊢
      exact ih h

theorem cacheGet_cacheSet_of_none {cache : CacheMap} {key0 : String}
    (key : String) (v : Nat) (h : cacheGet cache key0 = none) :
    cacheGet (cacheSet cache key v) key0 = none := by
  induction cache with
  | nil => simp [cacheGet, cacheSet]
  | cons e rest ih =>
    obtain ⟨k, u⟩ := e
    by_cases hk : (k == key0) = true
    · simp [cacheGet, hk] at h
    · simp only [cacheGet, cacheSet, hk] at h ⊢
      simp only [Bool.false_eq_true, if_false] at h ⊢
      exact ih h

/-! Theorems settling the claims. -/

/-- C1 (confirmed): for every watermark snapshot and every post sequence the
dedup filter outputs exactly the sub-sequence of posts satisfying the spec
predicate (media non-empty, and watermark absent or strictly below the post
id); at the boundary, with watermark 10 stored for the source, the post with
id 10 is excluded and the post with id 11 is included, and a post with empty
media is excluded also when no watermark is stored. -/
theorem dedup_filter_contract :
    (∀ cache posts, dedupFilter cache posts = posts.filter (specKeepPost cache))
  ∧ dedupFilter [("1", 10)]
      [samplePost 10 1 [.Photo "u"], samplePost 11 1 [.Photo "u"], samplePost 12 1 []]
      = [samplePost 11 1 [.Photo "u"]]
  ∧ keepPost [] (samplePost 12 1 []) = false := by
  refine ⟨?_, by decide, by decide⟩
  intro cache posts
  unfold dedupFilter
  apply List.filter_congr
  intro p _
  unfold keepPost specKeepPost
  cases hw : cacheGet cache (sfToString p.source_id) <;> simp [hw]

/-- C2 (confirmed): the aggregated processing order is the reverse of the
filtered concatenation of the feeds, which equals the concatenation, over
the feeds in reversed order, of each feed's filtered posts reversed — so
within each source the reversed (oldest-first) order is preserved; for one
feed with ids 5, 4, 3 in feed order, non-empty media and no stored
watermark, the processing order is 3, 4, 5. -/
theorem processing_order_reversed :
    (∀ cache feeds, processingOrder cache feeds
        = (feeds.reverse.map (fun fd => (dedupFilter cache (asIter fd)).reverse)).flatten)
  ∧ (processingOrder [] [feed543]).map ForeignPost.id
      = [SnowflakeRef.Number 3, .Number 4, .Number 5] := by
  refine ⟨?_, by decide⟩
  intro cache feeds
  induction feeds with
  | nil => rfl
  | cons fd rest ih =>
    simp only [processingOrder, dedupFilter] at ih ⊢
    simp only [List.map_cons, List.flatten_cons, List.filter_append, List.reverse_append,
      List.reverse_cons, List.map_append, List.flatten_append, List.map_nil,
      List.flatten_nil, List.append_nil]
    rw [ih]

/-- C5 counterexample: a post whose id is the non-coercible string abc, with
non-empty media, is excluded by the dedup filter as soon as a watermark is
stored for its source, although it is included when none is stored — the
claim that such a post is always treated as unseen fails. -/
theorem noncoercible_unseen_counterexample :
    parseU64 "abc" = none
  ∧ keepPost [("1", 5)] nonNumPost = false
  ∧ keepPost [] nonNumPost = true := by decide

/-- C5 amended: a post with a non-coercible string id and non-empty media is
treated as unseen exactly when no watermark is stored for its source; when
one is stored, the coercion-based strict comparison is unordered, so the
greater-than test is false and the post is excluded. -/
theorem noncoercible_id_filter (cache : CacheMap) (p : ForeignPost) (s : String)
    (hid : p.id = .String s) (hs : parseU64 s = none) (hm : p.media ≠ []) :
    keepPost cache p = (cacheGet cache (sfToString p.source_id)).isNone := by
  have hmedia : p.media.isEmpty = false := by
    cases hpm : p.media with
    | nil => exact absurd hpm hm
    | cons a l => rfl
  unfold keepPost
  rw [hid]
  cases hw : cacheGet cache (sfToString p.source_id) <;>
    simp [hw, hmedia, sfGtU64_string_none hs]

/-- C5 witness: the amended statement at the concrete non-coercible post,
with a watermark stored for its source. -/
theorem noncoercible_id_filter_witness :
    keepPost [("1", 5)] nonNumPost
      = (cacheGet [("1", 5)] (sfToString nonNumPost.source_id)).isNone :=
  noncoercible_id_filter [("1", 5)] nonNumPost "abc" rfl (by decide) (by decide)

/-- C6 counterexample: two character-identical non-coercible strings do
compare equal (the claim says they are never treated as equal), and two
numeric strings do not order by numeric value (their ordering is None). -/
theorem identifier_cmp_claim_counterexample :
    sfEq (SnowflakeRef.String "abc") (.String "abc") = true
  ∧ sfPartialCmp (SnowflakeRef.String "123") (.String "124") = none := by decide

/-- C6 amended: equality is symmetric; two numbers compare numerically for
equality and ordering; two strings compare equal exactly when they are
character-identical and never order (None even for numeric or identical
strings); across variants a string equals a number exactly when it parses to
that number, a non-coercible string neither equals nor orders against a
number, and a coercible string orders against a number as the comparison of
its parsed value against the number — in that fixed orientation for both
argument orders. -/
theorem identifier_cmp_characterization :
    (∀ x y, sfEq x y = sfEq y x)
  ∧ (∀ a b : Nat, (sfEq (.Number a) (.Number b) = true ↔ a = b)
      ∧ sfPartialCmp (SnowflakeRef.Number a) (.Number b) = some (compare a b))
  ∧ (∀ s t : String, (sfEq (.String s) (.String t) = true ↔ s = t)
      ∧ sfPartialCmp (SnowflakeRef.String s) (.String t) = none)
  ∧ (∀ (s : String) (b : Nat),
        (sfEq (.String s) (.Number b) = true ↔ parseU64 s = some b)
      ∧ (parseU64 s = none →
          sfPartialCmp (SnowflakeRef.String s) (.Number b) = none
          ∧ sfPartialCmp (SnowflakeRef.Number b) (.String s) = none)
      ∧ (∀ r, parseU64 s = some r →
          sfPartialCmp (SnowflakeRef.String s) (.Number b) = some (compare r b)
          ∧ sfPartialCmp (SnowflakeRef.Number b) (.String s) = some (compare r b))) := by
  refine ⟨?_, ?_, ?_, ?_⟩
  · intro x y
    cases x <;> cases y <;> simp only [sfEq] <;>
      (rw [Bool.eq_iff_iff]; simp only [beq_iff_eq]; exact eq_comm)
  · intro a b
    exact ⟨by simp [sfEq], rfl⟩
  · intro s t
    exact ⟨by simp [sfEq], rfl⟩
  · intro s b
    refine ⟨?_, ?_, ?_⟩
    · cases hp : parseU64 s <;> simp [sfEq, hp]
    · intro hp
      simp [sfPartialCmp, hp]
    · intro r hp
      simp [sfPartialCmp, hp]

/-- C6 witness: the characterization applied at concrete identifiers,
showing a non-coercible string never ordering against a number, and the
fixed string-versus-number orientation of the cross-variant ordering. -/
theorem identifier_cmp_characterization_witness :
    sfPartialCmp (SnowflakeRef.String "abc") (.Number 1) = none
  ∧ sfPartialCmp (SnowflakeRef.Number 124) (.String "123") = some (compare 123 124) :=
  ⟨((identifier_cmp_characterization.2.2.2 "abc" 1).2.1 (by decide)).1,
   ((identifier_cmp_characterization.2.2.2 "123" 124).2.2 123 (by decide)).2⟩

/-- C7 (confirmed): cross-variant identifier comparison follows numeric
coercion and is total (the embedded eq and partial_cmp are plain total
functions, with no panic path): String 123 equals Number 123 in both
argument orders, String abc versus Number 1 is unequal in both orders, and
its ordering is None in both orders. -/
theorem identifier_coercion_total :
    sfEq (SnowflakeRef.String "123") (.Number 123) = true
  ∧ sfEq (SnowflakeRef.Number 123) (.String "123") = true
  ∧ sfEq (SnowflakeRef.String "abc") (.Number 1) = false
  ∧ sfEq (SnowflakeRef.Number 1) (.String "abc") = false
  ∧ sfPartialCmp (SnowflakeRef.String "abc") (.Number 1) = none
  ∧ sfPartialCmp (SnowflakeRef.Number 1) (.String "abc") = none := by decide

theorem unwrapNumber_eq_some {x : SnowflakeRef} {n : Nat}
    (h : unwrapNumber x = some n) : x = .Number n := by
  cases x with
  | Number v =>
    simp only [unwrapNumber, Option.some_inj] at h
    rw [h]
  | String s => simp [unwrapNumber] at h

theorem sfGtU64_self_false (n : Nat) : sfGtU64 (.Number n) n = false := by
  cases hb : sfGtU64 (.Number n) n with
  | false => rfl
  | true => exact absurd ((sfGtU64_number_iff n n).mp hb) (lt_irrefl n)

theorem advanceWatermark_absent {cache : CacheMap} {post : ForeignPost}
    (hkey : cacheGet cache (sfToString post.source_id) = none) :
    advanceWatermark cache post
      = (unwrapNumber post.id).map (fun n => cache ++ [(sfToString post.source_id, n)]) := by
  unfold advanceWatermark
  rw [hkey]

theorem advanceWatermark_present {cache : CacheMap} {post : ForeignPost} {k : Nat}
    (hkey : cacheGet cache (sfToString post.source_id) = some k) :
    advanceWatermark cache post
      = if sfGtU64 post.id k then
          (unwrapNumber post.id).map (fun n => cacheSet cache (sfToString post.source_id) n)
        else some cache := by
  unfold advanceWatermark
  rw [hkey]

theorem advance_sets {cache : CacheMap} {post : ForeignPost} {n : Nat}
    (hid : post.id = .Number n)
    (hwm : cacheGet cache (sfToString post.source_id) = none ∨
      ∃ k, cacheGet cache (sfToString post.source_id) = some k ∧ k < n) :
    ∃ c', advanceWatermark cache post = some c'
      ∧ cacheGet c' (sfToString post.source_id) = some n := by
  rcases hwm with hw | ⟨k, hw, hk⟩
  · refine ⟨cache ++ [(sfToString post.source_id, n)], ?_, ?_⟩
    · simp [advanceWatermark, hw, hid, unwrapNumber]
    · rw [cacheGet_append_of_none _ hw]
      simp [cacheGet]
  · have hgt : sfGtU64 (SnowflakeRef.Number n) k = true := (sfGtU64_number_iff n k).mpr hk
    refine ⟨cacheSet cache (sfToString post.source_id) n, ?_, ?_⟩
    · simp [advanceWatermark, hw, hgt, hid, unwrapNumber]
    · rw [cacheGet_cacheSet_of_some _ _ hw]
      simp

theorem advance_mono {cache c' : CacheMap} {post : ForeignPost}
    (h : advanceWatermark cache post = some c') {key0 : String} {w : Nat}
    (hw : cacheGet cache key0 = some w) :
    ∃ w', cacheGet c' key0 = some w' ∧ w ≤ w' := by
  cases hkey : cacheGet cache (sfToString post.source_id) with
  | none =>
    rw [advanceWatermark_absent hkey] at h
    cases hid : unwrapNumber post.id with
    | none => rw [hid] at h; simp at h
    | some n =>
      rw [hid] at h
      simp only [Option.map_some', Option.some_inj] at h
      subst h
      exact ⟨w, cacheGet_append_of_some _ hw, le_refl w⟩
  | some k =>
    rw [advanceWatermark_present hkey] at h
    by_cases hgt : sfGtU64 post.id k = true
    · rw [if_pos hgt] at h
      cases hid : unwrapNumber post.id with
      | none => rw [hid] at h; simp at h
      | some n =>
        rw [hid] at h
        simp only [Option.map_some', Option.some_inj] at h
        subst h
        have hidn : post.id = .Number n := unwrapNumber_eq_some hid
        rw [hidn] at hgt
        have hkn : k < n := (sfGtU64_number_iff n k).mp hgt
        rw [cacheGet_cacheSet_of_some _ _ hw]
        by_cases hkk : (key0 == sfToString post.source_id) = true
        · have hkeq : key0 = sfToString post.source_id := beq_iff_eq.mp hkk
          rw [hkeq] at hw
          rw [hw] at hkey
          obtain rfl : w = k := Option.some_inj.mp hkey
          exact ⟨n, by rw [if_pos hkk], Nat.le_of_lt hkn⟩
        · refine ⟨w, ?_, le_refl w⟩
          rw [if_neg ?_]
          simpa using hkk
    · rw [if_neg hgt] at h
      obtain rfl : cache = c' := Option.some_inj.mp h
      exact ⟨w, hw, le_refl w⟩

/-- C3 (confirmed): per post in the delivery loop, a first successful
deliver advances the watermark to the post id with one attempt and no
sleeps; a first rate-limit error with a retry-after causes exactly one sleep
of that duration and exactly one more deliver call, advancing the watermark
only if that second call succeeds; a second failure, or a non-rate-limit
first failure, leaves the watermark store unchanged and triggers no further
retry. -/
theorem delivery_orchestrator (cache : CacheMap) (post : ForeignPost)
    (n m t : Nat) (e2 e : TelegramError) (o2 : Except TelegramError Nat)
    (hid : post.id = .Number n)
    (hwm : cacheGet cache (sfToString post.source_id) = none ∨
      ∃ k, cacheGet cache (sfToString post.source_id) = some k ∧ k < n)
    (he : ∀ t0, e ≠ .RateLimited t0) :
    ((processPost (.ok m) o2 cache post).1.bind
        (fun c => cacheGet c (sfToString post.source_id)) = some n
      ∧ (processPost (.ok m) o2 cache post).2.result = .ok m
      ∧ (processPost (.ok m) o2 cache post).2.attempts = 1
      ∧ (processPost (.ok m) o2 cache post).2.sleeps = [])
  ∧ ((processPost (.error (.RateLimited t)) (.ok m) cache post).1.bind
        (fun c => cacheGet c (sfToString post.source_id)) = some n
      ∧ (processPost (.error (.RateLimited t)) (.ok m) cache post).2.attempts = 2
      ∧ (processPost (.error (.RateLimited t)) (.ok m) cache post).2.sleeps = [t])
  ∧ processPost (.error (.RateLimited t)) (.error e2) cache post
      = (some cache, ⟨.error e2, 2, [t]⟩)
  ∧ processPost (.error e) o2 cache post = (some cache, ⟨.error e, 1, []⟩) := by
  obtain ⟨c', hadv, hget⟩ := advance_sets hid hwm
  refine ⟨⟨?_, rfl, rfl, rfl⟩, ⟨?_, rfl, rfl⟩, rfl, ?_⟩
  · simp [processPost, deliverWithRetry, hadv, hget]
  · simp [processPost, deliverWithRetry, hadv, hget]
  · cases e with
    | RateLimited t0 => exact absurd rfl (he t0)
    | Http => rfl
    | Scheme => rfl
    | Server c d => rfl

/-- C3 witness: the orchestrator applied to a concrete post over an empty
store, with concrete success, rate-limit and failure outcomes. -/
theorem delivery_orchestrator_witness :
    ((processPost (.ok 7) (.error .Http) [] deliveryPost).1.bind
        (fun c => cacheGet c (sfToString deliveryPost.source_id)) = some 5
      ∧ (processPost (.ok 7) (.error .Http) [] deliveryPost).2.result = .ok 7
      ∧ (processPost (.ok 7) (.error .Http) [] deliveryPost).2.attempts = 1
      ∧ (processPost (.ok 7) (.error .Http) [] deliveryPost).2.sleeps = [])
  ∧ ((processPost (.error (.RateLimited 2)) (.ok 7) [] deliveryPost).1.bind
        (fun c => cacheGet c (sfToString deliveryPost.source_id)) = some 5
      ∧ (processPost (.error (.RateLimited 2)) (.ok 7) [] deliveryPost).2.attempts = 2
      ∧ (processPost (.error (.RateLimited 2)) (.ok 7) [] deliveryPost).2.sleeps = [2])
  ∧ processPost (.error (.RateLimited 2)) (.error .Http) [] deliveryPost
      = (some [], ⟨.error .Http, 2, [2]⟩)
  ∧ processPost (.error .Scheme) (.error .Http) [] deliveryPost
      = (some [], ⟨.error .Scheme, 1, []⟩) :=
  delivery_orchestrator [] deliveryPost 5 7 2 .Http .Scheme (.error .Http) rfl
    (.inl rfl) (fun _ h => TelegramError.noConfusion h)

/-- C4 (confirmed): an advance sets the stored value to the candidate id
exactly when the key is absent or the candidate is strictly greater than the
current value, and is a no-op otherwise; advancing is idempotent; and over
every sequence of advances the stored watermark of every source is
non-decreasing. -/
theorem watermark_monotonic (cache : CacheMap) (post : ForeignPost) (n : Nat)
    (hid : post.id = .Number n) :
    (cacheGet cache (sfToString post.source_id) = none →
        advanceWatermark cache post
          = some (cache ++ [(sfToString post.source_id, n)]))
  ∧ (∀ k, cacheGet cache (sfToString post.source_id) = some k → k < n →
        advanceWatermark cache post
          = some (cacheSet cache (sfToString post.source_id) n))
  ∧ (∀ k, cacheGet cache (sfToString post.source_id) = some k → n ≤ k →
        advanceWatermark cache post = some cache)
  ∧ (∀ c', advanceWatermark cache post = some c' →
        advanceWatermark c' post = some c')
  ∧ (∀ posts c0 c1, advanceAll c0 posts = some c1 →
        ∀ key w, cacheGet c0 key = some w →
          ∃ w', cacheGet c1 key = some w' ∧ w ≤ w') := by
  refine ⟨?_, ?_, ?_, ?_, ?_⟩
  · intro hw
    simp [advanceWatermark, hw, hid, unwrapNumber]
  · intro k hw hk
    have hgt : sfGtU64 (SnowflakeRef.Number n) k = true := (sfGtU64_number_iff n k).mpr hk
    simp [advanceWatermark, hw, hgt, hid, unwrapNumber]
  · intro k hw hk
    have hgt : sfGtU64 (SnowflakeRef.Number n) k = false := by
      cases hb : sfGtU64 (.Number n) k with
      | false => rfl
      | true => exact absurd ((sfGtU64_number_iff n k).mp hb) (Nat.not_lt.mpr hk)
    simp [advanceWatermark, hw, hgt, hid]
  · intro c' h
    cases hkey : cacheGet cache (sfToString post.source_id) with
    | none =>
      rw [advanceWatermark_absent hkey, hid] at h
      simp only [unwrapNumber, Option.map_some', Option.some_inj] at h
      subst h
      have hget : cacheGet (cache ++ [(sfToString post.source_id, n)])
          (sfToString post.source_id) = some n := by
        rw [cacheGet_append_of_none _ hkey]
        simp [cacheGet]
      rw [advanceWatermark_present hget, hid, sfGtU64_self_false]
      simp
    | some k =>
      rw [advanceWatermark_present hkey] at h
      by_cases hgt : sfGtU64 post.id k = true
      · rw [if_pos hgt, hid] at h
        simp only [unwrapNumber, Option.map_some', Option.some_inj] at h
        subst h
        have hget : cacheGet (cacheSet cache (sfToString post.source_id) n)
            (sfToString post.source_id) = some n := by
          rw [cacheGet_cacheSet_of_some _ _ hkey]
          simp
        rw [advanceWatermark_present hget, hid, sfGtU64_self_false]
        simp
      · rw [if_neg hgt] at h
        obtain rfl : cache = c' := Option.some_inj.mp h
        rw [advanceWatermark_present hkey, if_neg hgt]
  · intro posts
    induction posts with
    | nil =>
      intro c0 c1 h key w hw
      obtain rfl : c0 = c1 := Option.some_inj.mp h
      exact ⟨w, hw, le_refl w⟩
    | cons p ps ih =>
      intro c0 c1 h key w hw
      simp only [advanceAll, List.foldlM] at h
      cases hstep : advanceWatermark c0 p with
      | none => rw [hstep] at h; simp at h
      | some cmid =>
        rw [hstep] at h
        have h2 : advanceAll cmid ps = some c1 := h
        obtain ⟨w1, hget1, hle1⟩ := advance_mono hstep hw
        obtain ⟨w', hget', hle'⟩ := ih cmid c1 h2 key w1 hget1
        exact ⟨w', hget', Nat.le_trans hle1 hle'⟩

/-- C4 witness: advancing a concrete numeric-id post over the empty store
appends its watermark entry. -/
theorem watermark_monotonic_witness :
    advanceWatermark [] deliveryPost
      = some ([] ++ [(sfToString deliveryPost.source_id, 5)]) :=
  (watermark_monotonic [] deliveryPost 5 rfl).1 rfl

/-- C8 counterexample: the run can in fact panic: handling a success
response whose result list is empty hits the result[0] index panic, and the
watermark advance hits the unwrap_number panic on a post with a
non-coercible string id, although the dedup filter admits such a post when
no watermark is stored for its source. -/
theorem run_panic_counterexample :
    sendHandleResponse (.Ok []) = none
  ∧ keepPost [] nonNumPost = true
  ∧ advanceWatermark [] nonNumPost = none :=
  ⟨rfl, by decide, rfl⟩

/-- C8 amended: no panic occurs on the shapes the pipeline itself produces:
the watermark advance is total for every post with a numeric id, every post
the VK adapter produces has a numeric id, the filter only passes posts with
non-empty media (so the empty-media delivery panic is unreachable for
filtered posts), response handling is total for every response other than a
success response with an empty result list, and preparing a send is total
for non-empty media; the two none cases exhibited in the counterexample are
the only panic points of these components. -/
theorem run_no_panic_on_pipeline_shapes (cache : CacheMap) (p : ForeignPost)
    (n : Nat) (resp : TelegramResponse) :
    (p.id = .Number n → (advanceWatermark cache p).isSome = true)
  ∧ (keepPost cache p = true → p.media ≠ [])
  ∧ (∀ f : VKGroupFeed, ∀ q ∈ asIter f, ∃ m0, q.id = .Number m0)
  ∧ (resp ≠ .Ok [] → (sendHandleResponse resp).isSome = true)
  ∧ (∀ (text : String) (media : List TelegramMedia), media ≠ [] →
        (sendPrepare text media).isSome = true) := by
  refine ⟨?_, ?_, ?_, ?_, ?_⟩
  · intro hid
    cases hkey : cacheGet cache (sfToString p.source_id) with
    | none =>
      rw [advanceWatermark_absent hkey, hid]
      simp [unwrapNumber]
    | some k =>
      rw [advanceWatermark_present hkey, hid]
      by_cases hgt : sfGtU64 (SnowflakeRef.Number n) k = true
      · simp [hgt, unwrapNumber]
      · simp [hgt]
  · intro hkeep heq
    unfold keepPost at hkeep
    rw [heq] at hkeep
    simp at hkeep
  · intro f q hq
    simp only [asIter, List.mem_map] at hq
    obtain ⟨item, _, rfl⟩ := hq
    exact ⟨item.id, rfl⟩
  · intro hresp
    cases resp with
    | Ok result =>
      cases result with
      | nil => exact absurd rfl hresp
      | cons m ms => simp [sendHandleResponse]
    | Err c d par =>
      unfold sendHandleResponse
      split <;> simp_all
  · intro text media hne
    cases media with
    | nil => exact absurd rfl hne
    | cons m rest => simp [sendPrepare]

/-- C8 witness: the panic-freedom applied at a concrete numeric-id post and
a concrete error response. -/
theorem run_no_panic_witness :
    (advanceWatermark [] deliveryPost).isSome = true
  ∧ (sendHandleResponse (.Err 500 "e" none)).isSome = true :=
  ⟨(run_no_panic_on_pipeline_shapes [] deliveryPost 5 (.Err 500 "e" none)).1 rfl,
   (run_no_panic_on_pipeline_shapes [] deliveryPost 5 (.Err 500 "e" none)).2.2.2.1
     (fun h => TelegramResponse.noConfusion h)⟩

/-- C9 counterexample: two stores holding equal mappings — the same two
entries in the two possible iteration orders — serialize to different byte
strings, because the serializer emits entries in iteration order. -/
theorem serialize_deterministic_counterexample :
    cacheGet [("1", 5), ("2", 7)] = cacheGet [("2", 7), ("1", 5)]
  ∧ serializeCacheRecords [("1", 5), ("2", 7)]
      ≠ serializeCacheRecords [("2", 7), ("1", 5)] := by
  constructor
  · funext key
    by_cases h1 : (("1" : String) == key) = true
    · have e1 := beq_iff_eq.mp h1
      by_cases h2 : (("2" : String) == key) = true
      · have e2 := beq_iff_eq.mp h2
        exact absurd (e1.trans e2.symm) (by decide)
      · simp [cacheGet, h1, h2]
    · simp [cacheGet, h1]
  · decide

theorem joinComma_mem {x : String} {l : List String} (h : x ∈ l) :
    ∃ pre suf, joinComma l = pre ++ x ++ suf := by
  induction l with
  | nil => cases h
  | cons y rest ih =>
    cases h with
    | head =>
      cases rest with
      | nil =>
        refine ⟨"", "", ?_⟩
        simp [joinComma, String.empty_append, String.append_empty]
      | cons z zs =>
        refine ⟨"", "," ++ joinComma (z :: zs), ?_⟩
        simp [joinComma, String.empty_append, String.append_assoc]
    | tail _ hmem =>
      obtain ⟨pre, suf, hps⟩ := ih hmem
      cases rest with
      | nil => cases hmem
      | cons z zs =>
        refine ⟨y ++ "," ++ pre, suf, ?_⟩
        have hyz : joinComma (y :: z :: zs) = y ++ "," ++ joinComma (z :: zs) := rfl
        rw [hyz, hps]
        simp [String.append_assoc]

/-- C9 amended: serialization is a deterministic pure function of the entry
sequence and a full snapshot of it — every stored entry appears literally in
the output — but byte-for-byte equality is guaranteed only for identical
entry sequences, not for equal mappings, because the HashMap iteration order
that fixes the entry sequence is unspecified. -/
theorem serialize_full_snapshot (entries : CacheMap) (k : String) (v : Nat)
    (h : (k, v) ∈ entries) :
    ∃ pre suf, serializeCacheRecords entries
      = pre ++ ("\"" ++ jsonEscape k ++ "\":" ++ Nat.repr v) ++ suf := by
  have hmem : ("\"" ++ jsonEscape k ++ "\":" ++ Nat.repr v)
      ∈ entries.map (fun e => "\"" ++ jsonEscape e.1 ++ "\":" ++ Nat.repr e.2) :=
    List.mem_map.mpr ⟨(k, v), h, rfl⟩
  obtain ⟨pre, suf, hps⟩ := joinComma_mem hmem
  refine ⟨"\x7b\"vk\":\x7b" ++ pre, suf ++ "\x7d\x7d", ?_⟩
  rw [serializeCacheRecords, hps]
  simp [String.append_assoc]

/-- C9 witness: the snapshot property at a concrete one-entry store. -/
theorem serialize_full_snapshot_witness :
    ∃ pre suf, serializeCacheRecords [("a", 3)]
      = pre ++ ("\"" ++ jsonEscape "a" ++ "\":" ++ Nat.repr 3) ++ suf :=
  serialize_full_snapshot [("a", 3)] "a" 3 (List.Mem.head _)

theorem foldl_protect_init (l : List Char) (init : String) :
    l.foldl (fun acc c => acc ++ protectChar c) init
      = init ++ l.foldl (fun acc c => acc ++ protectChar c) "" := by
  induction l generalizing init with
  | nil => simp [List.foldl, String.append_empty]
  | cons c cs ih =>
    simp only [List.foldl]
    rw [ih (init ++ protectChar c), ih ("" ++ protectChar c)]
    simp [String.append_assoc, String.empty_append]

theorem protectedString_append (s t : String) :
    protectedString (s ++ t) = protectedString s ++ protectedString t := by
  unfold protectedString
  rw [String.data_append, List.foldl_append]
  exact foldl_protect_init t.data _

/-- C10 (confirmed): the message text is built by HTML-escaping the post
text and the source label character by character — amp, lt and gt become
their entities, every other character is unchanged, and the escaping
distributes over concatenation — the permalink url is interpolated raw, and
send attaches the composed text as the caption (with HTML parse mode) of
the first media element only, every adapter-produced element starting with
no caption; shown end to end on a concrete post whose text, url and label
all contain escapable characters. -/
theorem message_building :
    (protectChar '&' = "&amp;" ∧ protectChar '<' = "&lt;" ∧ protectChar '>' = "&gt;")
  ∧ (∀ c : Char, c ≠ '&' → c ≠ '<' → c ≠ '>' → protectChar c = String.singleton c)
  ∧ (∀ s t : String, protectedString (s ++ t) = protectedString s ++ protectedString t)
  ∧ (∀ p : ForeignPost, ∀ q ∈ byForeignMedia p, q.caption = none ∧ q.parse_mode = none)
  ∧ (∀ (text : String) (m : TelegramMedia) (rest : List TelegramMedia),
        sendPrepare text (m :: rest)
          = some ({ m with caption := some text, parse_mode := some "HTML" } :: rest))
  ∧ sendPrepare (byForeignText sampleRichPost) (byForeignMedia sampleRichPost)
      = some [ { type := .Photo, media := "m1",
                 caption := some "a&amp;b&lt;c&gt;\n\nsrc: <a href=\"https://x?a=1&b=2\">s&lt;1&gt;</a>",
                 parse_mode := some "HTML" },
               { type := .Photo, media := "m2",
                 caption := none, parse_mode := none } ] := by
  refine ⟨⟨rfl, rfl, rfl⟩, ?_, protectedString_append, ?_, fun text m rest => rfl, by decide⟩
  · intro c h1 h2 h3
    unfold protectChar
    split
    · exact absurd rfl h1
    · exact absurd rfl h3
    · exact absurd rfl h2
    · rfl
  · intro p q hq
    simp only [byForeignMedia, List.mem_map] at hq
    obtain ⟨m0, _, rfl⟩ := hq
    cases m0 <;> exact ⟨rfl, rfl⟩

/-- C10 witness: a character outside the escape set is unchanged. -/
theorem message_building_witness :
    protectChar 'x' = String.singleton 'x' :=
  message_building.2.1 'x' (by decide) (by decide) (by decide)

end Secretfop
